import Mathlib

/-!
Verification of the report-dashboard ingestion pipeline (`core/processing.py`).

Text cells are modelled as lists of characters (`Str`).  Dates are modelled as
`Option Nat` (a `none` models pandas `NaT`).  The Excel decoding layer (pandas
reads, fixed header offsets, `norm_cols` renaming) is modelled by a `Sheet`
structure that holds the decoded per-sheet data: the parsed report date cell,
whether the renamed columns contain `champ_zone`, and the data rows.
-/

namespace RJD

abbrev Str := List Char

/-- Modelled from the spec: the NFKD decomposition table of Python's
`unicodedata` module (an external library, not part of this repository).
Identity on undecomposable characters; the accented letters used in this
development decompose into base letter plus combining mark. -/
def nfkdChar : Char → Str
  | 'é' => ['e', Char.ofNat 0x301]
  | 'è' => ['e', Char.ofNat 0x300]
  | 'É' => ['E', Char.ofNat 0x301]
  | 'ô' => ['o', Char.ofNat 0x302]
  | 'à' => ['a', Char.ofNat 0x300]
  | c => [c]

/-- Modelled from the spec: Python's `unicodedata.combining` test (external
library); true exactly on the combining diacritical marks block used here. -/
def isCombining (c : Char) : Bool :=
  (0x300 ≤ c.toNat) && (c.toNat ≤ 0x36F)

/-- Whitespace-run split of Python's argumentless `str.split`: split on
whitespace and drop empty fragments. -/
def splitWs (s : Str) : List Str :=
  (List.splitOnP (fun c => c.isWhitespace) s).filter (fun t => !t.isEmpty)

/-- Embedding of `strip_accents_spaces`: replace CR/LF by spaces, collapse
whitespace runs (via split and join with single spaces), NFKD-normalize and
drop combining marks. -/
def strip_accents_spaces (s : Str) : Str :=
  let s1 := s.map (fun c => if c == '\n' || c == '\r' then ' ' else c)
  let s2 := List.intercalate ([' ']) (splitWs s1)
  (s2.flatMap nfkdChar).filter (fun c => !isCombining c)

def lowerStr (s : Str) : Str := s.map Char.toLower

def upperStr (s : Str) : Str := s.map Char.toUpper

/-- Both-ends whitespace trim, as Python's `str.strip()`. -/
def stripEnds (s : Str) : Str :=
  ((s.dropWhile Char.isWhitespace).reverse.dropWhile Char.isWhitespace).reverse

/-- Truthy tokens accepted by `to_bool`. -/
def truthyTokens : List Str :=
  [['1'], ['t','r','u','e'], ['v','r','a','i'], ['o','u','i'],
   ['y','e','s'], ['y'], ['t'], ['x']]

/-- Embedding of `to_bool` on one cell: strip, lowercase, and test membership
in the fixed truthy-token set. -/
def to_bool (cell : Str) : Bool :=
  truthyTokens.contains (lowerStr (stripEnds cell))

/-! ### SHA-1 (embedding of `hashlib.sha1(...).hexdigest()`)

Byte strings are lists of naturals below 256; all arithmetic is `Nat` with
explicit reduction modulo `2 ^ 32`. -/

def rotl32 (n x : Nat) : Nat :=
  ((x <<< n) ||| (x >>> (32 - n))) % 2 ^ 32

def sha1K (i : Nat) : Nat :=
  if i < 20 then 0x5A827999
  else if i < 40 then 0x6ED9EBA1
  else if i < 60 then 0x8F1BBCDC
  else 0xCA62C1D6

def sha1Mix (i b c d : Nat) : Nat :=
  if i < 20 then (b &&& c) ||| ((b ^^^ 0xFFFFFFFF) &&& d)
  else if i < 40 then b ^^^ c ^^^ d
  else if i < 60 then (b &&& c) ||| (b &&& d) ||| (c &&& d)
  else b ^^^ c ^^^ d

/-- Big-endian 8-byte encoding of a natural number. -/
def be64 (n : Nat) : List Nat :=
  (List.range 8).reverse.map (fun i => n / 2 ^ (8 * i) % 256)

/-- SHA-1 message padding: append 0x80, zero bytes up to 56 mod 64, then the
big-endian 64-bit bit length. -/
def sha1Pad (msg : List Nat) : List Nat :=
  let len := msg.length
  let padLen := (64 + 56 - (len + 1) % 64) % 64
  msg ++ [0x80] ++ List.replicate padLen 0 ++ be64 (8 * len)

/-- Split a byte string into 64-byte chunks. -/
def chunks64 (l : List Nat) : List (List Nat) :=
  if h : l.length = 0 then [] else l.take 64 :: chunks64 (l.drop 64)
termination_by l.length
decreasing_by simp [List.length_drop]; omega

/-- Big-endian 32-bit word from four bytes. -/
def word32 (b : List Nat) : Nat := b.foldl (fun a x => a * 256 + x) 0

def chunkWords (c : List Nat) : List Nat :=
  (List.range 16).map (fun i => word32 ((c.drop (4 * i)).take 4))

/-- Extend the 16 scheduled words to 80. -/
def sha1Schedule (w0 : List Nat) : List Nat :=
  (List.range 64).foldl
    (fun w _ =>
      w ++ [rotl32 1 (((w.getD (w.length - 3) 0) ^^^ (w.getD (w.length - 8) 0)) ^^^
        ((w.getD (w.length - 14) 0) ^^^ (w.getD (w.length - 16) 0)))])
    w0

def sha1Round (st : Nat × Nat × Nat × Nat × Nat) (iw : Nat × Nat) :
    Nat × Nat × Nat × Nat × Nat :=
  let (a, b, c, d, e) := st
  let (i, w) := iw
  let t := (rotl32 5 a + sha1Mix i b c d + e + sha1K i + w) % 2 ^ 32
  (t, a, rotl32 30 b, c, d)

def sha1Chunk (h : Nat × Nat × Nat × Nat × Nat) (chunk : List Nat) :
    Nat × Nat × Nat × Nat × Nat :=
  let ws := sha1Schedule (chunkWords chunk)
  let st := (((List.range 80).zip ws).foldl sha1Round h)
  ((h.1 + st.1) % 2 ^ 32, (h.2.1 + st.2.1) % 2 ^ 32, (h.2.2.1 + st.2.2.1) % 2 ^ 32,
    (h.2.2.2.1 + st.2.2.2.1) % 2 ^ 32, (h.2.2.2.2 + st.2.2.2.2) % 2 ^ 32)

def sha1Init : Nat × Nat × Nat × Nat × Nat :=
  (0x67452301, 0xEFCDAB89, 0x98BADCFE, 0x10325476, 0xC3D2E1F0)

def hexDigit (n : Nat) : Char :=
  if n < 10 then Char.ofNat (48 + n) else Char.ofNat (87 + n)

def hex8 (x : Nat) : Str :=
  (List.range 8).reverse.map (fun i => hexDigit (x / 16 ^ i % 16))

/-- Hex digest of the SHA-1 hash of a byte string. -/
def sha1hex (msg : List Nat) : Str :=
  let h := (chunks64 (sha1Pad msg)).foldl sha1Chunk sha1Init
  hex8 h.1 ++ hex8 h.2.1 ++ hex8 h.2.2.1 ++ hex8 h.2.2.2.1 ++ hex8 h.2.2.2.2

/-- UTF-8 encoding of one character. -/
def utf8Char (c : Char) : List Nat :=
  let n := c.toNat
  if n < 0x80 then [n]
  else if n < 0x800 then [0xC0 + n / 64, 0x80 + n % 64]
  else if n < 0x10000 then [0xE0 + n / 4096, 0x80 + n / 64 % 64, 0x80 + n % 64]
  else [0xF0 + n / 262144, 0x80 + n / 4096 % 64, 0x80 + n / 64 % 64, 0x80 + n % 64]

def utf8Encode (s : Str) : List Nat := s.flatMap utf8Char

/-! ### Data model -/

/-- One data row of one sheet, as decoded by pandas after the fixed-offset
header extraction and `norm_cols` renaming.  A `none` cell models a missing
(NaN) value; `cellStr` below plays the role of `astype(str)`. -/
structure RawRow where
  champ_zone : Option Str
  plateforme_sous_zone : Option Str
  num_puits : Option Str
  tag_equipement : Option Str
  sous_equipement : Option Str
  metier : Option Str
  travaux_commentaires : Option Str
  termine : Option Str
  en_cours : Option Str
  reporte : Option Str
  indisponible : Option Str
deriving DecidableEq

/-- One workbook sheet after Excel decoding: the parsed report-date cell
(row 2, column 8; `none` models NaT), whether the renamed header contains a
`champ_zone` column, the sheet name, and the data rows (from row index 5 on). -/
structure Sheet where
  name : Str
  date_cell : Option Nat
  has_champ_zone : Bool
  rows : List RawRow
deriving DecidableEq

/-- One row of the daily table (a DailyFact). -/
structure Row where
  action_key : Str
  date_rapport : Option Nat
  champ_zone : Str
  plateforme_sous_zone : Str
  num_puits : Str
  tag_equipement : Str
  sous_equipement : Str
  metier : Str
  travaux_commentaires : Str
  termine : Bool
  en_cours : Bool
  reporte : Bool
  indisponible : Bool
  feuille : Str
deriving DecidableEq

/-- One row of the rolled table: the daily columns plus the derived flag
columns added by `_rollup`. -/
structure RolledRow where
  action_key : Str
  date_rapport : Option Nat
  champ_zone : Str
  plateforme_sous_zone : Str
  num_puits : Str
  tag_equipement : Str
  sous_equipement : Str
  metier : Str
  travaux_commentaires : Str
  termine : Bool
  en_cours : Bool
  reporte : Bool
  indisponible : Bool
  feuille : Str
  en_cours_ff : Bool
  reporte_ff : Bool
  termine_seen : Bool
  termine_final : Bool
  en_cours_final : Bool
  reporte_final : Bool
deriving DecidableEq

/-- One row of `actions_latest` (final flags renamed back to the plain
flag column names). -/
structure LatestRow where
  action_key : Str
  date_rapport : Option Nat
  champ_zone : Str
  plateforme_sous_zone : Str
  num_puits : Str
  tag_equipement : Str
  sous_equipement : Str
  metier : Str
  travaux_commentaires : Str
  termine : Bool
  en_cours : Bool
  reporte : Bool
deriving DecidableEq

/-- One row of the `transitions` table. -/
structure TransitionEvent where
  action_key : Str
  date_rapport : Option Nat
  termine : Bool
  en_cours : Bool
  reporte : Bool
  change_desc : Str
deriving DecidableEq

/-- The named output table set of `build_week_tables_from_excel_bytes`. -/
structure Tables where
  actions_daily : List Row
  actions_consistent : List Row
  actions_latest : List LatestRow
  ended_actions : List LatestRow
  running_actions : List LatestRow
  postponed_actions : List LatestRow
  equipment_downtime : List Row
  transitions : List TransitionEvent
deriving DecidableEq

/-! ### Sheet cleaning (embedding of `_clean_week_sheets_from_bytes`) -/

/-- Python's `str(x)` on a possibly-NaN cell: NaN prints as the string
`nan`. -/
def cellStr : Option Str → Str
  | none => ['n', 'a', 'n']
  | some s => s

/-- Embedding of `_strip_col` applied to one cell. -/
def _strip_col (s : Str) : Str := upperStr (strip_accents_spaces s)

def prevSentinel : Str := ['P','R','E','V','I','S','I','O','N']

/-- Row test used by `_get_prevision_index`. -/
def isPrevRow (r : RawRow) : Bool :=
  _strip_col (cellStr r.champ_zone) == prevSentinel

/-- Embedding of `_get_prevision_index`: index of the first sentinel row,
`none` when absent (the Python version returns `False` then). -/
def _get_prevision_index : List RawRow → Option Nat
  | [] => none
  | r :: t => if isPrevRow r then some 0 else (_get_prevision_index t).map (· + 1)

/-- Descriptive-field cleaning applied per column: `astype(str)`, map the
`nan` print to the empty string, then `strip_accents_spaces`. -/
def cleanCell (c : Option Str) : Str :=
  strip_accents_spaces (if cellStr c == ['n', 'a', 'n'] then [] else cellStr c)

/-- Embedding of `_action_key`: the seven cleaned fields are re-normalized,
lowercased, joined with the separator and SHA-1 hashed. -/
def _action_key (cz pf np tg se me tc : Str) : Str :=
  sha1hex (utf8Encode (List.intercalate (['|', '|'])
    [lowerStr (strip_accents_spaces cz), lowerStr (strip_accents_spaces pf),
     lowerStr (strip_accents_spaces np), lowerStr (strip_accents_spaces tg),
     lowerStr (strip_accents_spaces se), lowerStr (strip_accents_spaces me),
     lowerStr (strip_accents_spaces tc)]))

/-- The joined pre-hash payload of `_action_key`, named so that key equality
can be traced to payload equality rather than to a hash collision. -/
def actionKeyPayload (cz pf np tg se me tc : Str) : Str :=
  List.intercalate (['|', '|'])
    [lowerStr (strip_accents_spaces cz), lowerStr (strip_accents_spaces pf),
     lowerStr (strip_accents_spaces np), lowerStr (strip_accents_spaces tg),
     lowerStr (strip_accents_spaces se), lowerStr (strip_accents_spaces me),
     lowerStr (strip_accents_spaces tc)]

/-- Build one daily row from a raw row: boolean coercion of the flag columns,
cleaning of the descriptive columns, then the key. -/
def makeRow (feuille : Str) (dt : Option Nat) (r : RawRow) : Row :=
  let cz := cleanCell r.champ_zone
  let pf := cleanCell r.plateforme_sous_zone
  let np := cleanCell r.num_puits
  let tg := cleanCell r.tag_equipement
  let se := cleanCell r.sous_equipement
  let me := cleanCell r.metier
  let tc := cleanCell r.travaux_commentaires
  { action_key := _action_key cz pf np tg se me tc
    date_rapport := dt
    champ_zone := cz, plateforme_sous_zone := pf, num_puits := np
    tag_equipement := tg, sous_equipement := se, metier := me
    travaux_commentaires := tc
    termine := to_bool (cellStr r.termine)
    en_cours := to_bool (cellStr r.en_cours)
    reporte := to_bool (cellStr r.reporte)
    indisponible := to_bool (cellStr r.indisponible)
    feuille := feuille }

/-- The `non_empty` keep test: some of the seven cleaned fields is non-blank
after stripping. -/
def rowNonEmpty (r : Row) : Bool :=
  [r.champ_zone, r.plateforme_sous_zone, r.num_puits, r.tag_equipement,
   r.sous_equipement, r.metier, r.travaux_commentaires].any
    (fun f => !(stripEnds f).isEmpty)

/-- Rows of a sheet kept by the `champ_zone` notna filter. -/
def keptRows (s : Sheet) : List RawRow :=
  s.rows.filter (fun r => r.champ_zone.isSome)

/-- Row construction and blank-row dropping applied after truncation. -/
def cleanRows (s : Sheet) (rows : List RawRow) : List Row :=
  (rows.map (makeRow s.name s.date_cell)).filter rowNonEmpty

/-- Per-sheet body of `_clean_week_sheets_from_bytes`: `none` when the sheet
has no `champ_zone` column (the sheet is skipped), otherwise the cleaned
rows after notna filtering, sentinel truncation, coercion and blank-row
dropping. -/
def cleanSheet (s : Sheet) : Option (List Row) :=
  if s.has_champ_zone then
    let kept := keptRows s
    let kept2 := match _get_prevision_index kept with
      | some i => kept.take i
      | none => kept
    some (cleanRows s kept2)
  else none

/-- The range-error message (embedding of the f-string raised by
`_clean_week_sheets_from_bytes`). -/
def rangeErrorMsg (start_sheet end_sheet total : Nat) : Str :=
  ("Plage de feuilles invalide (").toList ++ (toString start_sheet).toList ++
    ['-'] ++ (toString end_sheet).toList ++ (") pour ").toList ++
    (toString total).toList ++ (" feuilles disponibles.").toList

/-- Embedding of `_clean_week_sheets_from_bytes` on a decoded workbook: range
validation, then per-sheet cleaning over the selected 1-based inclusive
range; dates are collected for every sheet in range, frames only for sheets
owning a `champ_zone` column. -/
def _clean_week_sheets (wb : List Sheet) (start_sheet end_sheet : Nat) :
    Except Str (List (List Row) × List (Option Nat)) :=
  let total := wb.length
  if start_sheet < 1 ∨ total < end_sheet then
    .error (rangeErrorMsg start_sheet end_sheet total)
  else
    let sheets := (wb.drop (start_sheet - 1)).take (end_sheet - (start_sheet - 1))
    .ok (sheets.filterMap cleanSheet, sheets.map (fun s => s.date_cell))

/-! ### Temporal rollup (embedding of `_rollup`) -/

/-- Date comparison used by `sort_values("date_rapport")`: NaT sorts last. -/
def dateLe (a b : Option Nat) : Bool :=
  match a, b with
  | none, none => true
  | none, some _ => false
  | some _, none => true
  | some x, some y => x ≤ y

def rowDateLe (a b : Row) : Prop := dateLe a.date_rapport b.date_rapport = true

instance : DecidableRel rowDateLe := fun a b => by
  unfold rowDateLe; infer_instance

def sortByDate (g : List Row) : List Row := List.insertionSort rowDateLe g

/-- Forward fill over an optional column with a running last-seen value
(initially absent, so leading gaps fill as `false` via `fillna(False)`). -/
def ffill (last : Bool) : List (Option Bool) → List Bool
  | [] => []
  | none :: t => last :: ffill last t
  | some b :: t => b :: ffill b t

/-- Cumulative maximum of a boolean column. -/
def cummax (acc : Bool) : List Bool → List Bool
  | [] => []
  | b :: t => (acc || b) :: cummax (acc || b) t

/-- Assemble one rolled row from a daily row and its derived column values;
final flags follow the `np.where` expressions of `_rollup`. -/
def mkRolled (r : Row) (ts ef rf : Bool) : RolledRow :=
  { action_key := r.action_key, date_rapport := r.date_rapport
    champ_zone := r.champ_zone, plateforme_sous_zone := r.plateforme_sous_zone
    num_puits := r.num_puits, tag_equipement := r.tag_equipement
    sous_equipement := r.sous_equipement, metier := r.metier
    travaux_commentaires := r.travaux_commentaires
    termine := r.termine, en_cours := r.en_cours, reporte := r.reporte
    indisponible := r.indisponible, feuille := r.feuille
    en_cours_ff := ef, reporte_ff := rf, termine_seen := ts
    termine_final := ts
    en_cours_final := !ts && ef
    reporte_final := !ts && rf }

/-- Embedding of `_rollup` on one key group: sort by date, forward-fill
`en_cours`/`reporte`, latch `termine` by cumulative maximum, and derive the
final flags. -/
def _rollup (group : List Row) : List RolledRow :=
  let g := sortByDate group
  List.zipWith (fun r (p : Bool × Bool × Bool) => mkRolled r p.1 p.2.1 p.2.2) g
    ((cummax false (g.map (fun r => r.termine))).zip
      ((ffill false (g.map (fun r => some r.en_cours))).zip
        (ffill false (g.map (fun r => some r.reporte)))))

/-! ### Transition extraction (embedding of `_transitions`) -/

/-- Python's `str(bool(...))` rendering used inside the change
descriptions. -/
def pyBool (b : Bool) : Str :=
  if b then ['T','r','u','e'] else ['F','a','l','s','e']

def flagMsg (nm : Str) (prev cur : Bool) : Str :=
  nm ++ [':', ' '] ++ pyBool prev ++ [' ', '-', '>', ' '] ++ pyBool cur

/-- Embedding of `_desc`: one message per changed flag, in the fixed order
`termine`, `en_cours`, `reporte`, joined with semicolons. -/
def descOf (ct ce cr pt pe pr t e r : Bool) : Str :=
  List.intercalate ([';', ' '])
    ((if ct then [flagMsg (['t','e','r','m','i','n','e']) pt t] else []) ++
     (if ce then [flagMsg (['e','n','_','c','o','u','r','s']) pe e] else []) ++
     (if cr then [flagMsg (['r','e','p','o','r','t','e']) pr r] else []))

def rolledDateLe (a b : RolledRow) : Prop :=
  dateLe a.date_rapport b.date_rapport = true

instance : DecidableRel rolledDateLe := fun a b => by
  unfold rolledDateLe; infer_instance

def sortRolledByDate (g : List RolledRow) : List RolledRow :=
  List.insertionSort rolledDateLe g

/-- Scan of `_transitions`: compare each row's final flags with the previous
row's (all-false before the first row, per `shift(1).fillna(False)`) and emit
one event per row with any change. -/
def transitionsGo (pt pe pr : Bool) : List RolledRow → List TransitionEvent
  | [] => []
  | r :: t =>
    let ct := r.termine_final != pt
    let ce := r.en_cours_final != pe
    let cr := r.reporte_final != pr
    let rest := transitionsGo r.termine_final r.en_cours_final r.reporte_final t
    if ct || ce || cr then
      { action_key := r.action_key, date_rapport := r.date_rapport
        termine := r.termine_final, en_cours := r.en_cours_final
        reporte := r.reporte_final
        change_desc := descOf ct ce cr pt pe pr r.termine_final
          r.en_cours_final r.reporte_final } :: rest
    else rest

/-- Embedding of `_transitions` on one key group of the rolled table. -/
def _transitions (sub : List RolledRow) : List TransitionEvent :=
  transitionsGo false false false (sortRolledByDate sub)

/-! ### Grouping and view materialization -/

/-- Lexicographic character-list order (the order of the hex key strings). -/
def strLt : Str → Str → Bool
  | [], [] => false
  | [], _ :: _ => true
  | _ :: _, [] => false
  | a :: s, b :: t => a < b || (a == b && strLt s t)

def strLe (a b : Str) : Bool := strLt a b || a == b

/-- Distinct action keys in the sorted order produced by `groupby`. -/
def sortedKeys (daily : List Row) : List Str :=
  List.insertionSort (fun a b => strLe a b = true)
    ((daily.map (fun r => r.action_key)).dedup)

/-- The rolled table: `_rollup` applied group by group, groups in sorted key
order as `groupby("action_key")` yields them. -/
def rolledTable (daily : List Row) : List RolledRow :=
  (sortedKeys daily).flatMap
    (fun k => _rollup (daily.filter (fun r => r.action_key == k)))

/-- The transitions table: `_transitions` applied to each key group of the
rolled table. -/
def transitionsTable (daily : List Row) : List TransitionEvent :=
  (sortedKeys daily).flatMap
    (fun k => _transitions ((rolledTable daily).filter (fun r => r.action_key == k)))

def toLatest (r : RolledRow) : LatestRow :=
  { action_key := r.action_key, date_rapport := r.date_rapport
    champ_zone := r.champ_zone, plateforme_sous_zone := r.plateforme_sous_zone
    num_puits := r.num_puits, tag_equipement := r.tag_equipement
    sous_equipement := r.sous_equipement, metier := r.metier
    travaux_commentaires := r.travaux_commentaires
    termine := r.termine_final, en_cours := r.en_cours_final
    reporte := r.reporte_final }

/-- The `actions_latest` table: last rolled row of each key group (the
`groupby(...).tail(1)` of the key-and-date sorted rolled table). -/
def latestTable (daily : List Row) : List LatestRow :=
  ((sortedKeys daily).filterMap
    (fun k => ((rolledTable daily).filter (fun r => r.action_key == k)).getLast?)).map
    toLatest

def endedActions (daily : List Row) : List LatestRow :=
  (latestTable daily).filter (fun r => r.termine)

def runningActions (daily : List Row) : List LatestRow :=
  (latestTable daily).filter (fun r => !r.termine && r.en_cours)

def postponedActions (daily : List Row) : List LatestRow :=
  (latestTable daily).filter (fun r => !r.termine && r.reporte)

def equipmentDowntime (daily : List Row) : List Row :=
  daily.filter (fun r => r.indisponible)

/-- The `actions_consistent` projection of a rolled row: raw flag columns
dropped, final flags renamed to the plain names. -/
def toConsistent (r : RolledRow) : Row :=
  { action_key := r.action_key, date_rapport := r.date_rapport
    champ_zone := r.champ_zone, plateforme_sous_zone := r.plateforme_sous_zone
    num_puits := r.num_puits, tag_equipement := r.tag_equipement
    sous_equipement := r.sous_equipement, metier := r.metier
    travaux_commentaires := r.travaux_commentaires
    termine := r.termine_final, en_cours := r.en_cours_final
    reporte := r.reporte_final
    indisponible := r.indisponible, feuille := r.feuille }

def noUsableMsg : Str := ("No usable sheets in the selected range.").toList

def noDateMsg : Str :=
  ("Aucune date trouvee dans les feuilles selectionnees (colonne date_rapport vide).").toList

/-- Embedding of `build_week_tables_from_excel_bytes` on a decoded workbook:
clean the selected sheets, fail when no frame survived or when every row
lacks a report date, then materialize the eight output tables. -/
def build_week_tables_from_excel_bytes (wb : List Sheet)
    (start_sheet end_sheet : Nat) : Except Str Tables :=
  match _clean_week_sheets wb start_sheet end_sheet with
  | .error e => .error e
  | .ok (daily_frames, _) =>
    if daily_frames.isEmpty then .error noUsableMsg
    else
      let daily := daily_frames.flatten
      if daily.all (fun r => r.date_rapport == none) then .error noDateMsg
      else
        .ok { actions_daily := daily
              actions_consistent := (rolledTable daily).map toConsistent
              actions_latest := latestTable daily
              ended_actions := endedActions daily
              running_actions := runningActions daily
              postponed_actions := postponedActions daily
              equipment_downtime := equipmentDowntime daily
              transitions := transitionsTable daily }

/-! ### Recursive characterization of the rollup -/

/-- Accumulator form of the rollup scan: `acc` carries the `termine` latch.
Since the raw flag columns hold no missing values inside a group, the forward
fills reduce to the raw values themselves. -/
def rollupGo (acc : Bool) : List Row → List RolledRow
  | [] => []
  | r :: t =>
    mkRolled r (acc || r.termine) r.en_cours r.reporte ::
      rollupGo (acc || r.termine) t

/-- Boolean test for mutual exclusivity of the three final flags of a rolled
row. -/
def atMostOneFinal (r : RolledRow) : Bool :=
  !(r.termine_final && r.en_cours_final) &&
    !(r.termine_final && r.reporte_final) &&
    !(r.en_cours_final && r.reporte_final)

/-- Default rolled row, used to index concrete tables in witnesses. -/
def dfltRolled : RolledRow :=
  { action_key := [], date_rapport := none, champ_zone := [],
    plateforme_sous_zone := [], num_puits := [], tag_equipement := [],
    sous_equipement := [], metier := [], travaux_commentaires := [],
    termine := false, en_cours := false, reporte := false,
    indisponible := false, feuille := [],
    en_cours_ff := false, reporte_ff := false, termine_seen := false,
    termine_final := false, en_cours_final := false, reporte_final := false }

lemma zipWith_cummax_ffill_eq_rollupGo (acc e0 r0 : Bool) (l : List Row) :
    List.zipWith (fun r (p : Bool × Bool × Bool) => mkRolled r p.1 p.2.1 p.2.2) l
      ((cummax acc (l.map (fun r => r.termine))).zip
        ((ffill e0 (l.map (fun r => some r.en_cours))).zip
          (ffill r0 (l.map (fun r => some r.reporte))))) = rollupGo acc l := by
  induction l generalizing acc e0 r0 with
  | nil => rfl
  | cons r t ih =>
    simp only [List.map_cons, cummax, ffill, List.zip_cons_cons, List.zipWith,
      rollupGo]
    exact congrArg _ (ih _ _ _)

lemma rollup_eq_go (g : List Row) :
    _rollup g = rollupGo false (sortByDate g) := by
  unfold _rollup
  exact zipWith_cummax_ffill_eq_rollupGo false false false (sortByDate g)

lemma rollupGo_tf_of_acc_true (l : List Row) :
    ∀ x ∈ rollupGo true l, x.termine_final = true := by
  induction l with
  | nil => intro x hx; cases hx
  | cons r t ih =>
    intro x hx
    simp only [rollupGo, Bool.true_or, List.mem_cons] at hx
    rcases hx with h | h
    · subst h; rfl
    · exact ih x h

lemma rollupGo_pairwise_tf (acc : Bool) (l : List Row) :
    List.Pairwise (fun a b => a.termine_final = true → b.termine_final = true)
      (rollupGo acc l) := by
  induction l generalizing acc with
  | nil => exact List.Pairwise.nil
  | cons r t ih =>
    refine List.pairwise_cons.mpr ⟨?_, ih _⟩
    intro b hb htf
    have hacc : (acc || r.termine) = true := htf
    rw [hacc] at hb
    exact rollupGo_tf_of_acc_true t b hb

lemma rollupGo_exclusive (acc : Bool) (l : List Row) :
    ∀ x ∈ rollupGo acc l, x.termine_final = true →
      x.en_cours_final = false ∧ x.reporte_final = false := by
  induction l generalizing acc with
  | nil => intro x hx; cases hx
  | cons r t ih =>
    intro x hx htf
    simp only [rollupGo, List.mem_cons] at hx
    rcases hx with h | h
    · subst h
      simp only [mkRolled] at htf ⊢
      rw [htf]
      exact ⟨rfl, rfl⟩
    · exact ih _ x h htf

lemma rollupGo_dates (acc : Bool) (l : List Row) :
    (rollupGo acc l).map (fun x => x.date_rapport) =
      l.map (fun r => r.date_rapport) := by
  induction l generalizing acc with
  | nil => rfl
  | cons r t ih =>
    simp only [rollupGo, List.map_cons, mkRolled]
    exact congrArg _ (ih _)

lemma rollupGo_mem_date (acc : Bool) (l : List Row) (x : RolledRow)
    (hx : x ∈ rollupGo acc l) :
    x.date_rapport ∈ l.map (fun r => r.date_rapport) := by
  rw [← rollupGo_dates acc l]
  exact List.mem_map_of_mem _ hx

instance : IsTotal Row rowDateLe := by
  constructor
  intro a b
  unfold rowDateLe dateLe
  cases a.date_rapport <;> cases b.date_rapport <;> simp <;> omega

instance : IsTrans Row rowDateLe := by
  constructor
  intro a b c
  unfold rowDateLe dateLe
  cases a.date_rapport <;> cases b.date_rapport <;> cases c.date_rapport <;>
    simp <;> omega

lemma sortByDate_sorted (g : List Row) :
    List.Pairwise rowDateLe (sortByDate g) :=
  List.sorted_insertionSort rowDateLe g

lemma rollupGo_pairwise_dates (acc : Bool) (l : List Row)
    (hl : List.Pairwise rowDateLe l) :
    List.Pairwise rolledDateLe (rollupGo acc l) := by
  induction l generalizing acc with
  | nil => exact List.Pairwise.nil
  | cons r t ih =>
    rcases List.pairwise_cons.mp hl with ⟨hr, ht⟩
    refine List.pairwise_cons.mpr ⟨?_, ih _ ht⟩
    intro b hb
    have hd := rollupGo_mem_date _ t b hb
    rcases List.mem_map.mp hd with ⟨r2, hr2, hdr⟩
    unfold rolledDateLe
    have : dateLe r.date_rapport r2.date_rapport = true := hr r2 hr2
    simpa [mkRolled, ← hdr] using this

lemma mem_sortByDate (g : List Row) (r : Row) :
    r ∈ sortByDate g ↔ r ∈ g :=
  (List.perm_insertionSort rowDateLe g).mem_iff

lemma mem_sortRolledByDate (l : List RolledRow) (r : RolledRow) :
    r ∈ sortRolledByDate l ↔ r ∈ l :=
  (List.perm_insertionSort rolledDateLe l).mem_iff

/-- A group whose raw flags are everywhere false rolls up to all-false final
flags. -/
lemma rollupGo_allfalse (l : List Row)
    (h : ∀ r ∈ l, r.termine = false ∧ r.en_cours = false ∧ r.reporte = false) :
    ∀ x ∈ rollupGo false l, x.termine_final = false ∧
      x.en_cours_final = false ∧ x.reporte_final = false := by
  induction l with
  | nil => intro x hx; cases hx
  | cons r t ih =>
    intro x hx
    have hr := h r (List.mem_cons_self r t)
    simp only [rollupGo, List.mem_cons, hr.1, Bool.or_false] at hx
    rcases hx with hh | hh
    · subst hh
      simp [mkRolled, hr.1, hr.2.1, hr.2.2]
    · exact ih (fun r' hr' => h r' (List.mem_cons_of_mem r hr')) x hh

/-- The transition scan emits nothing when every row's final flags are false
and the carried previous flags are false. -/
lemma transitionsGo_allfalse (l : List RolledRow)
    (h : ∀ x ∈ l, x.termine_final = false ∧ x.en_cours_final = false ∧
      x.reporte_final = false) :
    transitionsGo false false false l = [] := by
  induction l with
  | nil => rfl
  | cons r t ih =>
    have hr := h r (List.mem_cons_self r t)
    simp only [transitionsGo, hr.1, hr.2.1, hr.2.2]
    simp only [bne_self_eq_false, Bool.or_self, Bool.false_or, if_neg]
    exact ih (fun x hx => h x (List.mem_cons_of_mem r hx))

/-- Counting in a filtered list. -/
lemma count_filter_eq (p : Row → Bool) (l : List Row) (r : Row) :
    (l.filter p).count r = if p r = true then l.count r else 0 := by
  induction l with
  | nil => simp
  | cons a t ih =>
    by_cases hpa : p a = true
    · by_cases har : a = r
      · subst har
        simp [List.filter_cons, hpa, List.count_cons, ih]
      · simp [List.filter_cons, hpa, List.count_cons, har, ih]
    · by_cases har : a = r
      · subst har
        simp [List.filter_cons, hpa, List.count_cons, ih]
      · simp [List.filter_cons, hpa, List.count_cons, har, ih]

/-- The sentinel index is a valid index. -/
lemma prevIdx_lt_length (l : List RawRow) (i : Nat)
    (h : _get_prevision_index l = some i) : i < l.length := by
  induction l generalizing i with
  | nil => cases h
  | cons r t ih =>
    by_cases hp : isPrevRow r = true
    · simp only [_get_prevision_index, hp, if_pos] at h
      cases h
      simp
    · simp only [_get_prevision_index, hp, if_neg, Bool.not_eq_true,
        Option.map_eq_some'] at h
      rcases h with ⟨j, hj, hji⟩
      subst hji
      simpa using ih j hj

/-- The row at the sentinel index is a sentinel row. -/
lemma prevIdx_isPrev (l : List RawRow) (i : Nat)
    (h : _get_prevision_index l = some i) (hi : i < l.length) :
    isPrevRow (l.get ⟨i, hi⟩) = true := by
  induction l generalizing i with
  | nil => cases h
  | cons r t ih =>
    by_cases hp : isPrevRow r = true
    · simp only [_get_prevision_index, hp, if_pos] at h
      cases h
      simpa using hp
    · simp only [_get_prevision_index, hp, if_neg, Bool.not_eq_true,
        Option.map_eq_some'] at h
      rcases h with ⟨j, hj, hji⟩
      subst hji
      simpa using ih j hj (by simpa using hi)

/-! ### Concrete inputs used by counterexamples and witnesses -/

/-- Base daily row for concrete scenarios. -/
def baseRow : Row :=
  { action_key := ['k'], date_rapport := some 1,
    champ_zone := ['z'], plateforme_sous_zone := [], num_puits := [],
    tag_equipement := [], sous_equipement := [], metier := [],
    travaux_commentaires := [], termine := false, en_cours := false,
    reporte := false, indisponible := false, feuille := ['s'] }

/-- Base raw sheet row for concrete scenarios. -/
def baseRaw : RawRow :=
  { champ_zone := some ['z'], plateforme_sous_zone := some ['p'],
    num_puits := none, tag_equipement := none, sous_equipement := none,
    metier := none, travaux_commentaires := none, termine := none,
    en_cours := none, reporte := none, indisponible := none }

/-- A day on which the action is marked both in progress and postponed. -/
def c1bad : Row := { baseRow with en_cours := true, reporte := true }

/-- A day on which the action is marked both done and in progress. -/
def c1done : Row := { baseRow with termine := true, en_cours := true }

/-- Two days with the same never-changing true flag. -/
def c2c1 : Row := { baseRow with en_cours := true, date_rapport := some 1 }

def c2c2 : Row := { baseRow with en_cours := true, date_rapport := some 2 }

/-- The en_cours-to-termine flip scenario. -/
def c2f1 : Row := { baseRow with en_cours := true, date_rapport := some 1 }

def c2f2 : Row := { baseRow with termine := true, date_rapport := some 2 }

/-- Expected first event of the flip scenario: the initial appearance. -/
def c2ev1 : TransitionEvent :=
  { action_key := ['k'], date_rapport := some 1, termine := false,
    en_cours := true, reporte := false,
    change_desc := ("en_cours: False -> True").toList }

/-- Expected second event of the flip scenario: the flip itself. -/
def c2ev2 : TransitionEvent :=
  { action_key := ['k'], date_rapport := some 2, termine := true,
    en_cours := false, reporte := false,
    change_desc := ("termine: False -> True; en_cours: True -> False").toList }

/-- A trivial sheet (no `champ_zone` column, no usable rows). -/
def emptySheet : Sheet :=
  { name := ['a'], date_cell := none, has_champ_zone := false, rows := [] }

/-- A two-sheet workbook for range-validation scenarios. -/
def c3wb : List Sheet := [emptySheet, emptySheet]

/-- Group for the monotonicity witness: done on day 1, re-marked in progress
on day 2. -/
def c4g : List Row :=
  [{ baseRow with termine := true, date_rapport := some 1 },
   { baseRow with en_cours := true, date_rapport := some 2 }]

/-- Raw rows with the same descriptive cells on different days and sheets. -/
def c5raw1 : RawRow := { baseRaw with termine := some ['x'] }

def c5raw2 : RawRow := { baseRaw with en_cours := some ['1'] }

/-- Sheet whose kept rows hold an accented sentinel row at index 1, followed
by a further data row. -/
def c6sheet : Sheet :=
  { name := ['f'], date_cell := some 3, has_champ_zone := true,
    rows := [{ baseRaw with champ_zone := none },
             { baseRaw with champ_zone := some ['z'] },
             { baseRaw with champ_zone := some (("Prévision").toList) },
             { baseRaw with champ_zone := some ['w'] }] }

/-- Downtime scenario: unavailable on day 1, absent on day 2, unavailable on
day 3, plus an unrelated available row. -/
def c7daily : List Row :=
  [{ baseRow with indisponible := true, date_rapport := some 1 },
   { baseRow with action_key := ['m'], date_rapport := some 2 },
   { baseRow with indisponible := true, date_rapport := some 3 }]

/-- One-sheet workbook producing no usable frame. -/
def c8wb : List Sheet := [emptySheet]

/-- One-sheet workbook whose only row has no parseable report date. -/
def c8wbNullDate : List Sheet :=
  [{ name := ['a'], date_cell := none, has_champ_zone := true,
     rows := [baseRaw] }]

/-- Raw rows whose descriptive fields differ but whose joined key payloads
coincide because of the unescaped separator. -/
def c10raw1 : RawRow :=
  { baseRaw with
    champ_zone := some (("a||b").toList)
    plateforme_sous_zone := some ['c'] }

def c10raw2 : RawRow :=
  { baseRaw with
    champ_zone := some ['a']
    plateforme_sous_zone := some (("b||c").toList) }

def c10row1 : Row := makeRow ['f'] (some 1) c10raw1

def c10row2 : Row := makeRow ['g'] (some 2) c10raw2

/-- The joined key payload of a daily row's seven descriptive fields. -/
def payloadOf (r : Row) : Str :=
  actionKeyPayload r.champ_zone r.plateforme_sous_zone r.num_puits
    r.tag_equipement r.sous_equipement r.metier r.travaux_commentaires

/-! ### Claims -/

/-- C1, counterexample: a day marked both `en_cours` and `reporte` (and not
`termine`) rolls up with `en_cours_final` and `reporte_final` both true, so
the rolled table is not mutually exclusive and the same latest row lies in
both `running_actions` and `postponed_actions`. -/
theorem c1_counterexample :
    ((rolledTable [c1bad]).all atMostOneFinal) = false ∧
    runningActions [c1bad] ≠ [] ∧
    runningActions [c1bad] = postponedActions [c1bad] := by
  refine ⟨by decide, by decide, by decide⟩

/-- C1, amended: on every rolled row a true `termine_final` forces the other
two final flags false, hence `ended_actions` is disjoint from both
`running_actions` and `postponed_actions`; but `en_cours_final` and
`reporte_final` may hold simultaneously, so `running_actions` and
`postponed_actions` may overlap. -/
theorem c1_amended_exclusivity (daily : List Row) :
    (∀ r ∈ rolledTable daily, r.termine_final = true →
      r.en_cours_final = false ∧ r.reporte_final = false) ∧
    (∀ x ∈ endedActions daily,
      x ∉ runningActions daily ∧ x ∉ postponedActions daily) := by
  constructor
  · intro r hr htf
    rcases List.mem_flatMap.mp hr with ⟨k, _, hrk⟩
    rw [rollup_eq_go] at hrk
    exact rollupGo_exclusive _ _ r hrk htf
  · intro x hx
    have hxt : x.termine = true := (List.mem_filter.mp hx).2
    constructor
    · intro hxr
      have hxe := (List.mem_filter.mp hxr).2
      rw [hxt] at hxe
      simp at hxe
    · intro hxr
      have hxe := (List.mem_filter.mp hxr).2
      rw [hxt] at hxe
      simp at hxe

/-- C1, witness for the amended theorem at a concrete one-row table. -/
theorem c1_amended_exclusivity_witness :
    ((rolledTable [c1done]).getD 0 dfltRolled).en_cours_final = false ∧
    ((rolledTable [c1done]).getD 0 dfltRolled).reporte_final = false :=
  (c1_amended_exclusivity [c1done]).1 _ (by decide) (by decide)

/-- C2, counterexample: an action whose raw flags never change but start
true gets one event for its initial appearance (the claim says zero), and
the en_cours-to-termine flip yields two events (the claim says one). -/
theorem c2_counterexample :
    (_transitions (_rollup [c2c1, c2c2])).length = 1 ∧
    (_transitions (_rollup [c2f1, c2f2])).length = 2 := by
  refine ⟨by decide, by decide⟩

/-- C2, amended: an action whose raw flags are false on every day emits zero
events; the en_cours-to-termine flip emits exactly two events, one for the
initial appearance on day 1 and one on day 2 describing the flip. -/
theorem c2_amended_transitions (g : List Row)
    (h : ∀ r ∈ g, r.termine = false ∧ r.en_cours = false ∧ r.reporte = false) :
    _transitions (_rollup g) = [] ∧
    _transitions (_rollup [c2f1, c2f2]) = [c2ev1, c2ev2] := by
  constructor
  · rw [rollup_eq_go]
    unfold _transitions
    apply transitionsGo_allfalse
    intro x hx
    rw [mem_sortRolledByDate] at hx
    exact rollupGo_allfalse _
      (fun r hr => h r ((mem_sortByDate g r).mp hr)) x hx
  · decide

/-- C2, witness for the amended theorem at a concrete all-false group. -/
theorem c2_amended_transitions_witness :
    _transitions (_rollup [baseRow]) = [] ∧
    _transitions (_rollup [c2f1, c2f2]) = [c2ev1, c2ev2] :=
  c2_amended_transitions [baseRow] (by decide)

/-- C4: along each rolled group (which `_rollup` orders by ascending
`date_rapport`, as the third conjunct records), `termine_final` is monotone
(once true it stays true on all later rows) and on any row with
`termine_final` true the other two final flags are false. -/
theorem c4_rollup_monotone (g : List Row) :
    List.Pairwise
      (fun a b => a.termine_final = true → b.termine_final = true)
      (_rollup g) ∧
    (∀ r ∈ _rollup g, r.termine_final = true →
      r.en_cours_final = false ∧ r.reporte_final = false) ∧
    List.Pairwise rolledDateLe (_rollup g) := by
  rw [rollup_eq_go]
  exact ⟨rollupGo_pairwise_tf _ _,
    fun r hr => rollupGo_exclusive _ _ r hr,
    rollupGo_pairwise_dates _ _ (sortByDate_sorted g)⟩

/-- C4, witness: the day-2 row of a group completed on day 1 keeps
`termine_final` with the other flags suppressed. -/
theorem c4_rollup_monotone_witness :
    ((_rollup c4g).getD 1 dfltRolled).en_cours_final = false ∧
    ((_rollup c4g).getD 1 dfltRolled).reporte_final = false :=
  (c4_rollup_monotone c4g).2.1 _ (by decide) (by decide)

/-- C3, counterexample: a request with `end < start` inside bounds is not
caught by the range check; the pipeline fails later with the empty-result
message, which is not the range-error message. -/
theorem c3_counterexample :
    build_week_tables_from_excel_bytes c3wb 2 1 = .error noUsableMsg ∧
    noUsableMsg ≠ rangeErrorMsg 2 1 2 := by
  refine ⟨rfl, by decide⟩

/-- C3, amended: `start < 1` or `end` beyond the sheet count fails with the
range error before any sheet is processed; `end < start` inside bounds also
produces no tables, but through the empty-result error rather than the
range error. -/
theorem c3_amended_range (wb : List Sheet) (s e : Nat) :
    ((s < 1 ∨ wb.length < e) →
      build_week_tables_from_excel_bytes wb s e =
        .error (rangeErrorMsg s e wb.length)) ∧
    (1 ≤ s → e ≤ wb.length → e < s →
      build_week_tables_from_excel_bytes wb s e = .error noUsableMsg) := by
  constructor
  · intro h
    unfold build_week_tables_from_excel_bytes _clean_week_sheets
    rw [if_pos h]
  · intro h1 h2 h3
    unfold build_week_tables_from_excel_bytes _clean_week_sheets
    rw [if_neg (by omega : ¬(s < 1 ∨ wb.length < e))]
    have he : e - (s - 1) = 0 := by omega
    simp [he]

/-- C3, witness for the amended theorem at concrete out-of-range and
inverted requests. -/
theorem c3_amended_range_witness :
    build_week_tables_from_excel_bytes c3wb 0 1 = .error (rangeErrorMsg 0 1 2) ∧
    build_week_tables_from_excel_bytes c3wb 2 1 = .error noUsableMsg :=
  ⟨(c3_amended_range c3wb 0 1).1 (Or.inl (by decide)),
   (c3_amended_range c3wb 2 1).2 (by decide) (by decide) (by decide)⟩

/-- C5: the action key of a built daily row depends only on the seven cleaned
descriptive fields; rows agreeing on those fields receive the same key on
any day, in any sheet, whatever their flag cells. -/
theorem c5_action_key_pure (f1 f2 : Str) (d1 d2 : Option Nat) (r1 r2 : RawRow)
    (h1 : cleanCell r1.champ_zone = cleanCell r2.champ_zone)
    (h2 : cleanCell r1.plateforme_sous_zone = cleanCell r2.plateforme_sous_zone)
    (h3 : cleanCell r1.num_puits = cleanCell r2.num_puits)
    (h4 : cleanCell r1.tag_equipement = cleanCell r2.tag_equipement)
    (h5 : cleanCell r1.sous_equipement = cleanCell r2.sous_equipement)
    (h6 : cleanCell r1.metier = cleanCell r2.metier)
    (h7 : cleanCell r1.travaux_commentaires = cleanCell r2.travaux_commentaires) :
    (makeRow f1 d1 r1).action_key = (makeRow f2 d2 r2).action_key := by
  show _action_key (cleanCell r1.champ_zone) (cleanCell r1.plateforme_sous_zone)
      (cleanCell r1.num_puits) (cleanCell r1.tag_equipement)
      (cleanCell r1.sous_equipement) (cleanCell r1.metier)
      (cleanCell r1.travaux_commentaires) =
    _action_key (cleanCell r2.champ_zone) (cleanCell r2.plateforme_sous_zone)
      (cleanCell r2.num_puits) (cleanCell r2.tag_equipement)
      (cleanCell r2.sous_equipement) (cleanCell r2.metier)
      (cleanCell r2.travaux_commentaires)
  rw [h1, h2, h3, h4, h5, h6, h7]

/-- C5, witness: rows with the same descriptive cells on different days,
sheets and flags share their key. -/
theorem c5_action_key_pure_witness :
    (makeRow ['f'] (some 1) c5raw1).action_key =
      (makeRow ['g'] (some 2) c5raw2).action_key :=
  c5_action_key_pure ['f'] ['g'] (some 1) (some 2) c5raw1 c5raw2
    (by decide) (by decide) (by decide) (by decide) (by decide) (by decide)
    (by decide)

/-- C6: when the kept rows of a sheet hold a sentinel PREVISION row (matched
case- and accent-insensitively) first at index `i`, cleaning keeps only the
processed prefix before `i` — so at most `i` rows survive, the truncation
point is the sentinel row itself, and a sentinel in the first data row
empties the sheet. -/
theorem c6_prevision_truncation (s : Sheet) (i : Nat)
    (hz : s.has_champ_zone = true)
    (hp : _get_prevision_index (keptRows s) = some i) :
    cleanSheet s = some (cleanRows s ((keptRows s).take i)) ∧
    ((cleanSheet s).getD []).length ≤ i ∧
    isPrevRow ((keptRows s).get ⟨i, prevIdx_lt_length _ _ hp⟩) = true ∧
    (i = 0 → cleanSheet s = some []) := by
  have hcs : cleanSheet s = some (cleanRows s ((keptRows s).take i)) := by
    unfold cleanSheet
    rw [if_pos hz]
    simp only [hp]
  refine ⟨hcs, ?_, prevIdx_isPrev _ _ hp _, ?_⟩
  · rw [hcs]
    simp only [Option.getD_some]
    unfold cleanRows
    calc ((((keptRows s).take i).map (makeRow s.name s.date_cell)).filter
          rowNonEmpty).length
        ≤ (((keptRows s).take i).map (makeRow s.name s.date_cell)).length :=
          List.length_filter_le _ _
      _ = ((keptRows s).take i).length := List.length_map _ _
      _ ≤ i := by
          rw [List.length_take]
          exact min_le_left _ _
  · intro hi0
    subst hi0
    rw [hcs]
    rfl

/-- C6, witness at a sheet whose second kept row is an accented sentinel. -/
theorem c6_prevision_truncation_witness :
    cleanSheet c6sheet = some (cleanRows c6sheet ((keptRows c6sheet).take 1)) :=
  (c6_prevision_truncation c6sheet 1 (by decide) (by decide)).1

/-- C7: `equipment_downtime` is the raw per-day filter of the daily table on
`indisponible`, preserving multiplicity (no dedup or rollup); in the
day-1/absent/day-3 scenario it holds exactly two rows. -/
theorem c7_downtime_raw (daily : List Row) (r : Row) :
    (equipmentDowntime daily).count r =
      (if r.indisponible = true then daily.count r else 0) ∧
    (equipmentDowntime c7daily).length = 2 := by
  refine ⟨?_, by decide⟩
  unfold equipmentDowntime
  exact count_filter_eq _ daily r

/-- C8: whenever cleaning the requested range yields no frame at all, or
only rows without a report date, the pipeline fails with an error and
returns no tables. -/
theorem c8_empty_or_dateless_fails (wb : List Sheet) (s e : Nat)
    (frames : List (List Row)) (dates : List (Option Nat))
    (hc : _clean_week_sheets wb s e = .ok (frames, dates))
    (hnull : ∀ r ∈ frames.flatten, r.date_rapport = none) :
    ∃ msg, build_week_tables_from_excel_bytes wb s e = .error msg := by
  unfold build_week_tables_from_excel_bytes
  rw [hc]
  by_cases hemp : frames.isEmpty
  · exact ⟨noUsableMsg, by simp [hemp]⟩
  · refine ⟨noDateMsg, ?_⟩
    have hall : frames.flatten.all (fun r => r.date_rapport == none) = true := by
      rw [List.all_eq_true]
      intro x hx
      simpa using hnull x hx
    simp [hemp, hall]

/-- C8, witness: a workbook whose single sheet lacks the identity column
yields no frame, and the run fails. -/
theorem c8_empty_or_dateless_fails_witness :
    ∃ msg, build_week_tables_from_excel_bytes c8wb 1 1 = .error msg :=
  c8_empty_or_dateless_fails c8wb 1 1 [] [none] rfl (by simp)

/-- C9: the pipeline is a pure function of the decoded workbook and the
requested range — equal inputs give value-identical output tables. -/
theorem c9_deterministic (wb1 wb2 : List Sheet) (s e : Nat) (h : wb1 = wb2) :
    build_week_tables_from_excel_bytes wb1 s e =
      build_week_tables_from_excel_bytes wb2 s e := by
  rw [h]

/-- C9, witness at a concrete workbook. -/
theorem c9_deterministic_witness :
    build_week_tables_from_excel_bytes [emptySheet] 1 1 =
      build_week_tables_from_excel_bytes [emptySheet] 1 1 :=
  c9_deterministic [emptySheet] [emptySheet] 1 1 rfl

/-- C10: two built rows whose descriptive fields differ have equal action
keys because the unescaped separator makes their joined payloads equal —
the key collision needs no SHA-1 collision. -/
theorem c10_separator_collision :
    c10row1.champ_zone ≠ c10row2.champ_zone ∧
    payloadOf c10row1 = payloadOf c10row2 ∧
    c10row1.action_key = c10row2.action_key := by
  have hp : payloadOf c10row1 = payloadOf c10row2 := by decide
  refine ⟨by decide, hp, ?_⟩
  show sha1hex (utf8Encode (payloadOf c10row1)) =
    sha1hex (utf8Encode (payloadOf c10row2))
  exact congrArg (fun p => sha1hex (utf8Encode p)) hp

end RJD
